import Mathlib

/-!
# Verification of the three-player contest-design scripts

Shallow embedding of `three_players.py` (the analytical case-classification
function `analytical_solution` and the linear program the script builds with
`scipy.optimize.linprog`) over the rationals, together with theorems settling
the spec claims about it.

The script's arithmetic is IEEE double arithmetic; the formulas are rational
functions of the inputs, so over strictly positive inputs (where no division
by zero occurs) the exact rational semantics used here is the ideal-arithmetic
reading of the code.  A separate extended-value model (`FVal`) captures the
float behaviour on a zero bid cost, where the source divides by zero and
produces infinities instead of raising an error.
-/

namespace ThreePlayers

/-- The result record built by `analytical_solution` in `three_players.py`:
a dict with keys `scores`, `prizes`, `revenue`, `description`.  The numeric
type is a parameter so the same shape serves the exact rational semantics
(`ℚ`) and the extended float model (`FVal`). -/
structure RegimeSolution (α : Type) where
  scores : α × α × α
  prizes : α × α × α
  revenue : α
  description : String
  deriving DecidableEq, Repr

/-- Branch body of Case 1 (`three_players.py` lines 119-124). -/
def case1_sol (k1 k2 : ℚ) : RegimeSolution ℚ :=
  { scores := (1 / (2 * k1), 1 / (2 * k2), 0)
    prizes := (1, 1, 0)
    revenue := 1 / (2 * k1) + 1 / (2 * k2)
    description := "Case 1: It is not worthwhile for the principal to demand effort from Player 3." }

/-- Branch body of Case 2 (`three_players.py` lines 126-133). -/
def case2_sol (k1 k3 : ℚ) : RegimeSolution ℚ :=
  { scores := (1 / (2 * k1) + 1 / (2 * k3), 1 / (2 * k3), 1 / (2 * k3))
    prizes := (1, 1/2, 1/2)
    revenue := 1 / (2 * k1) + 3 / (2 * k3)
    description := "Case 2: The principal transfers half of Player 2\x27s prize to Player 3." }

/-- Branch body of Case 3 (`three_players.py` lines 135-140). -/
def case3_sol (k3 : ℚ) : RegimeSolution ℚ :=
  { scores := (1 / k3, 1 / k3, 1 / k3)
    prizes := (1/2, 1/2, 1)
    revenue := 3 / k3
    description := "Case 3: The principal transfers half of Player 1\x27s and Player 2\x27s prize to\n        Player 3." }

/-- Branch body of Case 4 (`three_players.py` lines 142-153). -/
def case4_sol (k1 k2 k3 : ℚ) : RegimeSolution ℚ :=
  { scores := (1 / k1 - (k3 / k1 - 1) / (2 * k2), 1 / (2 * k2), 1 / (2 * k2))
    prizes := (3/2 - k3 / (2 * k2), 1/2, k3 / (2 * k2))
    revenue := 1 / k1 + (3 - k3 / k1) / (2 * k2)
    description := "Case 4: The principal transfers half of Player 2\x27s and some of Player 1\x27s to\n        Player 3. Player 2\x27s individual rationality constraint is binding." }

/-- Branch body of Case 5 (`three_players.py` lines 155-172). -/
def case5_sol (k1 k2 k3 : ℚ) : RegimeSolution ℚ :=
  { scores := ((4 - (k2 + k3) / k1) / (2 * k1), 1 / (2 * k1), 1 / (2 * k1))
    prizes := (2 - (k2 + k3) / (2 * k1), k2 / (2 * k1), k3 / (2 * k1))
    revenue := (6 - (k2 + k3) / k1) / (2 * k1)
    description := "Case 5: The principal transfers some of Player 1\x27s and Player 2\x27s prize to\n        Player 3. Every player\x27s individual rationality constraint is binding." }

/-- `analytical_solution(k)` from `three_players.py` (lines 98-172): a chain of
five conditional returns; Python's implicit fall-through return of `None` is the
`none` branch.  The chained comparison `a <= 3 <= b` is the conjunction of the
two comparisons, exactly as in the source. -/
def analytical_solution (k1 k2 k3 : ℚ) : Option (RegimeSolution ℚ) :=
  if 3 ≤ k3 / k2 then some (case1_sol k1 k2)
  else if k3 / k2 ≤ 3 ∧ 3 ≤ k3 / k1 then some (case2_sol k1 k3)
  else if k3 / k1 ≤ 3 ∧ 2 ≤ k3 / k2 then some (case3_sol k3)
  else if k3 / k1 ≤ 3 ∧ 3 ≤ (k2 + k3) / k1 ∧ k3 / k1 ≤ 2 then some (case4_sol k1 k2 k3)
  else if (k2 + k3) / k1 ≤ 3 ∧ k3 / k1 ≤ 2 then some (case5_sol k1 k2 k3)
  else none

/-! ## The linear program built by the script (lines 38-83)

Variable order `x = [s_1, s_2, s_3, p_1, p_2, p_3]`. -/

/-- Objective vector `c = -append(ones(3), zeros(3))` (line 42); `linprog`
minimises `c · x`, so this maximises the sum of the scores. -/
def cObj : Fin 6 → ℚ := ![-1, -1, -1, 0, 0, 0]

/-- Inequality constraint matrix `Aub` (lines 56-68): rows IC 1,2 / IC 1,3 /
IC 2,1 / IC 2,3 / IC 3,1 / IC 3,2 / IR 1 / IR 2 / IR 3. -/
def Aub (k1 k2 k3 : ℚ) : Fin 9 → Fin 6 → ℚ :=
  ![![k1, -k1, 0, -1, 0, 0],
    ![k1, 0, -k1, -1, 0, 0],
    ![-k2, k2, 0, 0, -1, 0],
    ![0, k2, -k2, 0, -1, 0],
    ![-k3, 0, k3, 0, 0, -1],
    ![0, -k3, k3, 0, 0, -1],
    ![k1, 0, 0, -1, 0, 0],
    ![0, k2, 0, 0, -1, 0],
    ![0, 0, k3, 0, 0, -1]]

/-- Right-hand sides `b_ub = [-0.5]*6 + [0]*3` (line 70). -/
def b_ub : Fin 9 → ℚ := ![-(1/2), -(1/2), -(1/2), -(1/2), -(1/2), -(1/2), 0, 0, 0]

/-- Equality constraint `Aeq = [[0,0,0,1,1,1]]` (line 75). -/
def Aeq : Fin 1 → Fin 6 → ℚ := ![![0, 0, 0, 1, 1, 1]]

/-- Equality right-hand side `beq = [2]` (line 76). -/
def beq : Fin 1 → ℚ := ![2]

/-- Variable bounds `[(0, 1/ki) for ki in k] + [(0, 1)]*3` (line 79). -/
def lpBounds (k1 k2 k3 : ℚ) : Fin 6 → ℚ × ℚ :=
  ![(0, 1 / k1), (0, 1 / k2), (0, 1 / k3), (0, 1), (0, 1), (0, 1)]

/-- Dot product of two 6-vectors. -/
def dot6 (a x : Fin 6 → ℚ) : ℚ := ∑ j, a j * x j

/-- Feasibility of a point for the script's LP: all inequality rows, the
equality row, and the box bounds. -/
def Feasible (k1 k2 k3 : ℚ) (x : Fin 6 → ℚ) : Prop :=
  (∀ i, dot6 (Aub k1 k2 k3 i) x ≤ b_ub i) ∧
  (∀ i, dot6 (Aeq i) x = beq i) ∧
  (∀ j, (lpBounds k1 k2 k3 j).1 ≤ x j ∧ x j ≤ (lpBounds k1 k2 k3 j).2)

/-- The revenue the script reads off a solver result: `-optimization_result.fun`
(line 91), i.e. the negated objective value. -/
def objValue (x : Fin 6 → ℚ) : ℚ := -(dot6 cObj x)

/-- The 6-vector `(s_1, s_2, s_3, p_1, p_2, p_3)` corresponding to an
analytical result record. -/
def solVec (r : RegimeSolution ℚ) : Fin 6 → ℚ :=
  ![r.scores.1, r.scores.2.1, r.scores.2.2, r.prizes.1, r.prizes.2.1, r.prizes.2.2]

/-! ## Extended-value model of the float semantics

The script runs on numpy float64 values.  On a zero bid cost the divisions in
the guards and formulas produce `inf` (numpy emits a runtime warning and
continues) rather than raising an error.  `FVal` models the values arising
from the script's operations on nonnegative inputs: exact rationals, `+inf`,
and `NaN`.  Negative infinity is not modelled (it cannot arise from the
operations below on nonnegative inputs); combinations that would produce it
are mapped to `nan`. -/
inductive FVal : Type where
  | num : ℚ → FVal
  | inf : FVal
  | nan : FVal
  deriving DecidableEq, Repr

/-- IEEE addition on the modelled values. -/
def fadd : FVal → FVal → FVal
  | .num a, .num b => .num (a + b)
  | .inf, .num _ => .inf
  | .num _, .inf => .inf
  | .inf, .inf => .inf
  | _, _ => .nan

/-- IEEE subtraction on the modelled values. -/
def fsub : FVal → FVal → FVal
  | .num a, .num b => .num (a - b)
  | .inf, .num _ => .inf
  | _, _ => .nan

/-- IEEE multiplication on the modelled values. -/
def fmul : FVal → FVal → FVal
  | .num a, .num b => .num (a * b)
  | .inf, .num b => if 0 < b then .inf else .nan
  | .num a, .inf => if 0 < a then .inf else .nan
  | .inf, .inf => .inf
  | _, _ => .nan

/-- IEEE division: a positive numerator over zero gives `inf`, `0/0` gives
`nan`. -/
def fdiv : FVal → FVal → FVal
  | .num a, .num b => if b = 0 then (if 0 < a then .inf else .nan) else .num (a / b)
  | .num _, .inf => .num 0
  | .inf, .num b => if 0 ≤ b then .inf else .nan
  | _, _ => .nan

/-- IEEE `<=`: every comparison involving NaN is false. -/
def fle : FVal → FVal → Bool
  | .num a, .num b => a ≤ b
  | .num _, .inf => true
  | .inf, .num _ => false
  | .inf, .inf => true
  | _, _ => false

/-- `analytical_solution` from `three_players.py` again, this time under the
float semantics of `FVal`, mirroring the source expression by expression. -/
def analytical_solution_float (k1 k2 k3 : FVal) : Option (RegimeSolution FVal) :=
  if fle (.num 3) (fdiv k3 k2) then
    some { scores := (fdiv (.num 1) (fmul (.num 2) k1), fdiv (.num 1) (fmul (.num 2) k2), .num 0)
           prizes := (.num 1, .num 1, .num 0)
           revenue := fadd (fdiv (.num 1) (fmul (.num 2) k1)) (fdiv (.num 1) (fmul (.num 2) k2))
           description := "Case 1: It is not worthwhile for the principal to demand effort from Player 3." }
  else if fle (fdiv k3 k2) (.num 3) && fle (.num 3) (fdiv k3 k1) then
    some { scores := (fadd (fdiv (.num 1) (fmul (.num 2) k1)) (fdiv (.num 1) (fmul (.num 2) k3)),
                      fdiv (.num 1) (fmul (.num 2) k3), fdiv (.num 1) (fmul (.num 2) k3))
           prizes := (.num 1, .num (1/2), .num (1/2))
           revenue := fadd (fdiv (.num 1) (fmul (.num 2) k1)) (fdiv (.num 3) (fmul (.num 2) k3))
           description := "Case 2: The principal transfers half of Player 2\x27s prize to Player 3." }
  else if fle (fdiv k3 k1) (.num 3) && fle (.num 2) (fdiv k3 k2) then
    some { scores := (fdiv (.num 1) k3, fdiv (.num 1) k3, fdiv (.num 1) k3)
           prizes := (.num (1/2), .num (1/2), .num 1)
           revenue := fdiv (.num 3) k3
           description := "Case 3: The principal transfers half of Player 1\x27s and Player 2\x27s prize to\n        Player 3." }
  else if fle (fdiv k3 k1) (.num 3) && fle (.num 3) (fdiv (fadd k2 k3) k1) &&
      fle (fdiv k3 k1) (.num 2) then
    some { scores := (fsub (fdiv (.num 1) k1) (fdiv (fsub (fdiv k3 k1) (.num 1)) (fmul (.num 2) k2)),
                      fdiv (.num 1) (fmul (.num 2) k2), fdiv (.num 1) (fmul (.num 2) k2))
           prizes := (fsub (.num (3/2)) (fdiv k3 (fmul (.num 2) k2)), .num (1/2),
                      fdiv k3 (fmul (.num 2) k2))
           revenue := fadd (fdiv (.num 1) k1) (fdiv (fsub (.num 3) (fdiv k3 k1)) (fmul (.num 2) k2))
           description := "Case 4: The principal transfers half of Player 2\x27s and some of Player 1\x27s to\n        Player 3. Player 2\x27s individual rationality constraint is binding." }
  else if fle (fdiv (fadd k2 k3) k1) (.num 3) && fle (fdiv k3 k1) (.num 2) then
    some { scores := (fdiv (fsub (.num 4) (fdiv (fadd k2 k3) k1)) (fmul (.num 2) k1),
                      fdiv (.num 1) (fmul (.num 2) k1), fdiv (.num 1) (fmul (.num 2) k1))
           prizes := (fsub (.num 2) (fdiv (fadd k2 k3) (fmul (.num 2) k1)),
                      fdiv k2 (fmul (.num 2) k1), fdiv k3 (fmul (.num 2) k1))
           revenue := fdiv (fsub (.num 6) (fdiv (fadd k2 k3) k1)) (fmul (.num 2) k1)
           description := "Case 5: The principal transfers some of Player 1\x27s and Player 2\x27s prize to\n        Player 3. Every player\x27s individual rationality constraint is binding." }
  else none

/-- The feasible LP point at `k = (2, 5, 6)` whose objective value strictly
exceeds the analytical revenue: it moves prize mass from player 2 to player 3
along the direction that keeps IC 2,3 / IC 3,2 / IR 3 tight, until IR 2
becomes binding. -/
def xC1 : Fin 6 → ℚ := ![13/40, 1/12, 1/10, 59/60, 5/12, 3/5]

/-! ## Helper lemmas -/

open Matrix in
@[simp] lemma cons_val_five {α : Type} {m : ℕ} (x : α)
    (u : Fin m.succ.succ.succ.succ.succ → α) :
    vecCons x u 5 = vecHead (vecTail (vecTail (vecTail (vecTail u)))) := rfl

open Matrix in
@[simp] lemma cons_val_six {α : Type} {m : ℕ} (x : α)
    (u : Fin m.succ.succ.succ.succ.succ.succ → α) :
    vecCons x u 6 = vecHead (vecTail (vecTail (vecTail (vecTail (vecTail u))))) := rfl

open Matrix in
@[simp] lemma cons_val_seven {α : Type} {m : ℕ} (x : α)
    (u : Fin m.succ.succ.succ.succ.succ.succ.succ → α) :
    vecCons x u 7 =
      vecHead (vecTail (vecTail (vecTail (vecTail (vecTail (vecTail u)))))) := rfl

open Matrix in
@[simp] lemma cons_val_eight {α : Type} {m : ℕ} (x : α)
    (u : Fin m.succ.succ.succ.succ.succ.succ.succ.succ → α) :
    vecCons x u 8 =
      vecHead (vecTail (vecTail (vecTail (vecTail (vecTail (vecTail (vecTail u))))))) := rfl

/-- Case analysis for a returned solution, with each branch's guard (and the
failure of all earlier guards) rewritten into division-free form using the
strict positivity of the bid costs. -/
theorem analytical_solution_cases (k1 k2 k3 : ℚ) (hk1 : 0 < k1) (hk2 : 0 < k2)
    (hk3 : 0 < k3) {sol : RegimeSolution ℚ}
    (h : analytical_solution k1 k2 k3 = some sol) :
    (3 * k2 ≤ k3 ∧ sol = case1_sol k1 k2) ∨
    (k3 < 3 * k2 ∧ 3 * k1 ≤ k3 ∧ sol = case2_sol k1 k3) ∨
    (k3 < 3 * k2 ∧ k3 < 3 * k1 ∧ 2 * k2 ≤ k3 ∧ sol = case3_sol k3) ∨
    (k3 < 3 * k2 ∧ k3 < 3 * k1 ∧ k3 < 2 * k2 ∧ 3 * k1 ≤ k2 + k3 ∧ k3 ≤ 2 * k1 ∧
      sol = case4_sol k1 k2 k3) ∨
    (k3 < 3 * k2 ∧ k3 < 3 * k1 ∧ k3 < 2 * k2 ∧ k2 + k3 < 3 * k1 ∧ k3 ≤ 2 * k1 ∧
      sol = case5_sol k1 k2 k3) := by
  unfold analytical_solution at h
  split_ifs at h with g1 g2 g3 g4 g5
  · exact Or.inl ⟨(le_div_iff₀ hk2).mp g1, (Option.some.inj h).symm⟩
  · have n1 : k3 < 3 * k2 := (div_lt_iff₀ hk2).mp (not_le.mp g1)
    exact Or.inr (Or.inl ⟨n1, (le_div_iff₀ hk1).mp g2.2, (Option.some.inj h).symm⟩)
  · have n1 : k3 < 3 * k2 := (div_lt_iff₀ hk2).mp (not_le.mp g1)
    have n2 : k3 < 3 * k1 := by
      rcases not_and_or.mp g2 with hc | hc
      · exact absurd (le_of_lt ((div_lt_iff₀ hk2).mpr n1)) hc
      · exact (div_lt_iff₀ hk1).mp (not_le.mp hc)
    exact Or.inr (Or.inr (Or.inl ⟨n1, n2, (le_div_iff₀ hk2).mp g3.2,
      (Option.some.inj h).symm⟩))
  · have n1 : k3 < 3 * k2 := (div_lt_iff₀ hk2).mp (not_le.mp g1)
    have n2 : k3 < 3 * k1 := by
      rcases not_and_or.mp g2 with hc | hc
      · exact absurd (le_of_lt ((div_lt_iff₀ hk2).mpr n1)) hc
      · exact (div_lt_iff₀ hk1).mp (not_le.mp hc)
    have n3 : k3 < 2 * k2 := by
      rcases not_and_or.mp g3 with hc | hc
      · exact absurd g4.1 hc
      · exact (div_lt_iff₀ hk2).mp (not_le.mp hc)
    exact Or.inr (Or.inr (Or.inr (Or.inl ⟨n1, n2, n3, (le_div_iff₀ hk1).mp g4.2.1,
      (div_le_iff₀ hk1).mp g4.2.2, (Option.some.inj h).symm⟩)))
  · have n1 : k3 < 3 * k2 := (div_lt_iff₀ hk2).mp (not_le.mp g1)
    have n2 : k3 < 3 * k1 := by
      rcases not_and_or.mp g2 with hc | hc
      · exact absurd (le_of_lt ((div_lt_iff₀ hk2).mpr n1)) hc
      · exact (div_lt_iff₀ hk1).mp (not_le.mp hc)
    have m5 : k3 ≤ 2 * k1 := (div_le_iff₀ hk1).mp g5.2
    have n3 : k3 < 2 * k2 := by
      rcases not_and_or.mp g3 with hc | hc
      · exact absurd (le_of_lt ((div_lt_iff₀ hk1).mpr n2)) hc
      · exact (div_lt_iff₀ hk2).mp (not_le.mp hc)
    have n4 : k2 + k3 < 3 * k1 := by
      have hb : ¬ 3 ≤ (k2 + k3) / k1 :=
        fun hb => g4 ⟨le_trans g5.2 (by norm_num), hb, g5.2⟩
      exact (div_lt_iff₀ hk1).mp (not_le.mp hb)
    exact Or.inr (Or.inr (Or.inr (Or.inr ⟨n1, n2, n3, n4, m5,
      (Option.some.inj h).symm⟩)))

/-- In every returned branch, the `revenue` field is the sum of the three
`scores` entries (a field identity needing no hypotheses on the inputs). -/
theorem revenue_eq_sum_scores (k1 k2 k3 : ℚ) {sol : RegimeSolution ℚ}
    (h : analytical_solution k1 k2 k3 = some sol) :
    sol.revenue = sol.scores.1 + sol.scores.2.1 + sol.scores.2.2 := by
  unfold analytical_solution at h
  split_ifs at h
  · rw [← Option.some.inj h]; simp [case1_sol]; try ring
  · rw [← Option.some.inj h]; simp [case2_sol]; try ring
  · rw [← Option.some.inj h]; simp [case3_sol]; try ring
  · rw [← Option.some.inj h]; simp [case4_sol]; try ring
  · rw [← Option.some.inj h]; simp [case5_sol]; try ring

/-- The negated objective value of the LP at the vector of an analytical
result record is the sum of its scores. -/
theorem objValue_solVec (r : RegimeSolution ℚ) :
    objValue (solVec r) = r.scores.1 + r.scores.2.1 + r.scores.2.2 := by
  simp [objValue, dot6, cObj, solVec, Fin.sum_univ_six]
  try ring

/-- The Case 1 point is feasible for the script's LP on every ordered
strictly positive triple. -/
theorem case1_feasible (k1 k2 k3 : ℚ) (hk1 : 0 < k1) (h12 : k1 ≤ k2)
    (h23 : k2 ≤ k3) : Feasible k1 k2 k3 (solVec (case1_sol k1 k2)) := by
  have hk2 : 0 < k2 := hk1.trans_le h12
  have hk3 : 0 < k3 := hk2.trans_le h23
  have u1 : (0:ℚ) < k1⁻¹ := inv_pos.mpr hk1
  have u2 : (0:ℚ) < k2⁻¹ := inv_pos.mpr hk2
  have u3 : (0:ℚ) < k3⁻¹ := inv_pos.mpr hk3
  have e1 : k1 * k1⁻¹ = 1 := mul_inv_cancel₀ hk1.ne'
  have e2 : k2 * k2⁻¹ = 1 := mul_inv_cancel₀ hk2.ne'
  have d21 : 1 ≤ k2 * k1⁻¹ := by
    rw [← e1]; exact mul_le_mul_of_nonneg_right h12 u1.le
  have d31 : 1 ≤ k3 * k1⁻¹ := by
    rw [← e1]; exact mul_le_mul_of_nonneg_right (h12.trans h23) u1.le
  have d32 : 1 ≤ k3 * k2⁻¹ := by
    rw [← e2]; exact mul_le_mul_of_nonneg_right h23 u2.le
  have p12 : 0 ≤ k1 * k2⁻¹ := by positivity
  refine ⟨?_, ?_, ?_⟩
  · intro i
    fin_cases i <;> simp [dot6, Aub, b_ub, solVec, case1_sol, Fin.sum_univ_six] <;>
      ring_nf <;> linarith [e1, e2, u1, u2, u3, d21, d31, d32, p12]
  · intro i
    fin_cases i
    norm_num [dot6, Aeq, beq, solVec, case1_sol, Fin.sum_univ_six]
  · intro j
    fin_cases j <;> constructor <;>
      simp [lpBounds, solVec, case1_sol] <;> ring_nf <;>
      linarith [e1, e2, u1, u2, u3, d21, d31, d32, p12]

/-- The Case 2 point is feasible for the script's LP on every ordered
strictly positive triple. -/
theorem case2_feasible (k1 k2 k3 : ℚ) (hk1 : 0 < k1) (h12 : k1 ≤ k2)
    (h23 : k2 ≤ k3) : Feasible k1 k2 k3 (solVec (case2_sol k1 k3)) := by
  have hk2 : 0 < k2 := hk1.trans_le h12
  have hk3 : 0 < k3 := hk2.trans_le h23
  have h13 : k1 ≤ k3 := h12.trans h23
  have u1 : (0:ℚ) < k1⁻¹ := inv_pos.mpr hk1
  have u2 : (0:ℚ) < k2⁻¹ := inv_pos.mpr hk2
  have u3 : (0:ℚ) < k3⁻¹ := inv_pos.mpr hk3
  have e1 : k1 * k1⁻¹ = 1 := mul_inv_cancel₀ hk1.ne'
  have e3 : k3 * k3⁻¹ = 1 := mul_inv_cancel₀ hk3.ne'
  have p21 : 0 ≤ k2 * k1⁻¹ := by positivity
  have p31 : 0 ≤ k3 * k1⁻¹ := by positivity
  have q13 : k1 * k3⁻¹ ≤ 1 :=
    by linarith [mul_le_mul_of_nonneg_right h13 u3.le, e3]
  have q23 : k2 * k3⁻¹ ≤ 1 :=
    by linarith [mul_le_mul_of_nonneg_right h23 u3.le, e3]
  have i31 : k3⁻¹ ≤ k1⁻¹ := by
    rw [← one_div, ← one_div]; exact one_div_le_one_div_of_le hk1 h13
  have i32 : k3⁻¹ ≤ k2⁻¹ := by
    rw [← one_div, ← one_div]; exact one_div_le_one_div_of_le hk2 h23
  refine ⟨?_, ?_, ?_⟩
  · intro i
    fin_cases i <;> simp [dot6, Aub, b_ub, solVec, case2_sol, Fin.sum_univ_six] <;>
      ring_nf <;> linarith [e1, e3, u1, u2, u3, p21, p31, q13, q23, i31, i32]
  · intro i
    fin_cases i
    norm_num [dot6, Aeq, beq, solVec, case2_sol, Fin.sum_univ_six]
  · intro j
    fin_cases j <;> constructor <;>
      simp [lpBounds, solVec, case2_sol] <;> ring_nf <;>
      linarith [e1, e3, u1, u2, u3, p21, p31, q13, q23, i31, i32]

/-- The Case 3 point is feasible for the script's LP on every ordered
strictly positive triple with `2 * k2 ≤ k3` (which holds whenever the code
reaches Case 3). -/
theorem case3_feasible (k1 k2 k3 : ℚ) (hk1 : 0 < k1) (h12 : k1 ≤ k2)
    (h23 : k2 ≤ k3) (hg : 2 * k2 ≤ k3) :
    Feasible k1 k2 k3 (solVec (case3_sol k3)) := by
  have hk2 : 0 < k2 := hk1.trans_le h12
  have hk3 : 0 < k3 := hk2.trans_le h23
  have h13 : k1 ≤ k3 := h12.trans h23
  have u1 : (0:ℚ) < k1⁻¹ := inv_pos.mpr hk1
  have u2 : (0:ℚ) < k2⁻¹ := inv_pos.mpr hk2
  have u3 : (0:ℚ) < k3⁻¹ := inv_pos.mpr hk3
  have e3 : k3 * k3⁻¹ = 1 := mul_inv_cancel₀ hk3.ne'
  have f1 : (2 * k1) * k3⁻¹ ≤ 1 :=
    by linarith [mul_le_mul_of_nonneg_right (show 2 * k1 ≤ k3 by linarith) u3.le, e3]
  have f2 : (2 * k2) * k3⁻¹ ≤ 1 :=
    by linarith [mul_le_mul_of_nonneg_right hg u3.le, e3]
  have i31 : k3⁻¹ ≤ k1⁻¹ := by
    rw [← one_div, ← one_div]; exact one_div_le_one_div_of_le hk1 h13
  have i32 : k3⁻¹ ≤ k2⁻¹ := by
    rw [← one_div, ← one_div]; exact one_div_le_one_div_of_le hk2 h23
  refine ⟨?_, ?_, ?_⟩
  · intro i
    fin_cases i <;> simp [dot6, Aub, b_ub, solVec, case3_sol, Fin.sum_univ_six] <;>
      ring_nf <;> linarith [e3, u1, u2, u3, f1, f2, i31, i32]
  · intro i
    fin_cases i
    norm_num [dot6, Aeq, beq, solVec, case3_sol, Fin.sum_univ_six]
  · intro j
    fin_cases j <;> constructor <;>
      simp [lpBounds, solVec, case3_sol] <;> ring_nf <;>
      linarith [e3, u1, u2, u3, f1, f2, i31, i32]

set_option maxHeartbeats 1000000 in
/-- The Case 4 point is feasible for the script's LP on every ordered
strictly positive triple with `k3 < 2 * k2` (which holds whenever the code
reaches Case 4). -/
theorem case4_feasible (k1 k2 k3 : ℚ) (hk1 : 0 < k1) (h12 : k1 ≤ k2)
    (h23 : k2 ≤ k3) (hlt : k3 < 2 * k2) :
    Feasible k1 k2 k3 (solVec (case4_sol k1 k2 k3)) := by
  have hk2 : 0 < k2 := hk1.trans_le h12
  have hk3 : 0 < k3 := hk2.trans_le h23
  have u1 : (0:ℚ) < k1⁻¹ := inv_pos.mpr hk1
  have u2 : (0:ℚ) < k2⁻¹ := inv_pos.mpr hk2
  have u3 : (0:ℚ) < k3⁻¹ := inv_pos.mpr hk3
  have e1 : k1 * k1⁻¹ = 1 := mul_inv_cancel₀ hk1.ne'
  have e2 : k2 * k2⁻¹ = 1 := mul_inv_cancel₀ hk2.ne'
  have d31 : 1 ≤ k3 * k1⁻¹ :=
    by linarith [mul_le_mul_of_nonneg_right (h12.trans h23) u1.le, e1]
  have d32 : 1 ≤ k3 * k2⁻¹ :=
    by linarith [mul_le_mul_of_nonneg_right h23 u2.le, e2]
  have q12 : k1 * k2⁻¹ ≤ 1 :=
    by linarith [mul_le_mul_of_nonneg_right h12 u2.le, e2]
  have E2 : k1 * k1⁻¹ * (k3 * k2⁻¹) = k3 * k2⁻¹ := by rw [e1]; ring
  have E3 : k2 * k2⁻¹ * (k3 * k1⁻¹) = k3 * k1⁻¹ := by rw [e2]; ring
  have E5 : k2 * k2⁻¹ * k1⁻¹ = k1⁻¹ := by rw [e2]; ring
  have F1 : 0 ≤ (2 * k2 - k3) * k1⁻¹ := mul_nonneg (by linarith) u1.le
  have G4 : 0 ≤ (2 * k2 - k3) * (k1⁻¹ * k2⁻¹) :=
    mul_nonneg (by linarith) (by positivity)
  have F3 : 0 ≤ k3 * ((2 * k2 - k3) * (k1⁻¹ * k2⁻¹)) := mul_nonneg hk3.le G4
  have F4 : 0 ≤ (k3 * k1⁻¹ - 1) * k2⁻¹ := mul_nonneg (by linarith) u2.le
  have F6 : k3 * k2⁻¹ < 2 :=
    by nlinarith [mul_lt_mul_of_pos_right hlt u2, e2]
  have s3b : k2⁻¹ / 2 ≤ k3⁻¹ := by
    have h : (1:ℚ) / (2 * k2) ≤ 1 / k3 := one_div_le_one_div_of_le hk3 hlt.le
    rw [one_div, one_div, mul_inv] at h
    linarith
  have p32 : 0 ≤ k3 * k2⁻¹ := by positivity
  refine ⟨?_, ?_, ?_⟩
  · intro i
    fin_cases i <;> simp [dot6, Aub, b_ub, solVec, case4_sol, Fin.sum_univ_six] <;>
      ring_nf <;>
      linarith [e1, e2, u1, u2, u3, d31, d32, q12, E2, E3, E5, F1, G4, F3, F4, F6, p32]
  · intro i
    fin_cases i
    norm_num [dot6, Aeq, beq, solVec, case4_sol, Fin.sum_univ_six]
    try ring
  · intro j
    fin_cases j <;> constructor <;>
      simp [lpBounds, solVec, case4_sol] <;> ring_nf <;>
      linarith [e1, e2, u1, u2, u3, d31, d32, q12, E2, E3, E5, F1, G4, F3, F4, F6,
        p32, s3b]

set_option maxHeartbeats 1000000 in
/-- The Case 5 point is feasible for the script's LP on every ordered
strictly positive triple with `k2 + k3 ≤ 3 * k1` and `k3 ≤ 2 * k1` (which
hold whenever the code reaches Case 5). -/
theorem case5_feasible (k1 k2 k3 : ℚ) (hk1 : 0 < k1) (h12 : k1 ≤ k2)
    (h23 : k2 ≤ k3) (hA : k2 + k3 ≤ 3 * k1) (hk32 : k3 ≤ 2 * k1) :
    Feasible k1 k2 k3 (solVec (case5_sol k1 k2 k3)) := by
  have hk2 : 0 < k2 := hk1.trans_le h12
  have hk3 : 0 < k3 := hk2.trans_le h23
  have u1 : (0:ℚ) < k1⁻¹ := inv_pos.mpr hk1
  have u2 : (0:ℚ) < k2⁻¹ := inv_pos.mpr hk2
  have u3 : (0:ℚ) < k3⁻¹ := inv_pos.mpr hk3
  have e1 : k1 * k1⁻¹ = 1 := mul_inv_cancel₀ hk1.ne'
  have d21 : 1 ≤ k2 * k1⁻¹ :=
    by linarith [mul_le_mul_of_nonneg_right h12 u1.le, e1]
  have d31 : 1 ≤ k3 * k1⁻¹ :=
    by linarith [mul_le_mul_of_nonneg_right (h12.trans h23) u1.le, e1]
  have A2 : (k2 + k3) * k1⁻¹ ≤ 3 :=
    by linarith [mul_le_mul_of_nonneg_right hA u1.le, e1]
  have A3 : k3 * k1⁻¹ ≤ 2 :=
    by linarith [mul_le_mul_of_nonneg_right hk32 u1.le, e1]
  have A4 : 2 * (k2 * k1⁻¹) ≤ 3 :=
    by linarith [mul_le_mul_of_nonneg_right (show 2 * k2 ≤ 3 * k1 by linarith) u1.le, e1]
  have A5 : 2 ≤ (k2 + k3) * k1⁻¹ :=
    by linarith [mul_le_mul_of_nonneg_right (show 2 * k1 ≤ k2 + k3 by linarith) u1.le, e1]
  have E8 : k1 * k1⁻¹ * (k2 * k1⁻¹) = k2 * k1⁻¹ := by rw [e1]; ring
  have E9 : k1 * k1⁻¹ * (k3 * k1⁻¹) = k3 * k1⁻¹ := by rw [e1]; ring
  have P1 : 0 ≤ (k2 * k1⁻¹ - 1) * (3 - (k2 + k3) * k1⁻¹) :=
    mul_nonneg (by linarith) (by linarith)
  have P2 : 0 ≤ (k3 * k1⁻¹ - 1) * (3 - (k2 + k3) * k1⁻¹) :=
    mul_nonneg (by linarith) (by linarith)
  have Q1 : 0 ≤ k1⁻¹ * (4 - (k2 + k3) * k1⁻¹) := mul_nonneg u1.le (by linarith)
  have Q2 : 0 ≤ k1⁻¹ * ((k2 + k3) * k1⁻¹ - 2) := mul_nonneg u1.le (by linarith)
  have s2b : k1⁻¹ / 2 ≤ k2⁻¹ := by
    have h : (1:ℚ) / (2 * k1) ≤ 1 / k2 := one_div_le_one_div_of_le hk2 (by linarith)
    rw [one_div, one_div, mul_inv] at h
    linarith
  have s3b : k1⁻¹ / 2 ≤ k3⁻¹ := by
    have h : (1:ℚ) / (2 * k1) ≤ 1 / k3 := one_div_le_one_div_of_le hk3 (by linarith)
    rw [one_div, one_div, mul_inv] at h
    linarith
  refine ⟨?_, ?_, ?_⟩
  · intro i
    fin_cases i <;> simp [dot6, Aub, b_ub, solVec, case5_sol, Fin.sum_univ_six] <;>
      ring_nf <;>
      linarith [e1, u1, u2, u3, d21, d31, A2, A3, A4, A5, E8, E9, P1, P2, Q1, Q2]
  · intro i
    fin_cases i
    norm_num [dot6, Aeq, beq, solVec, case5_sol, Fin.sum_univ_six]
    try ring
  · intro j
    fin_cases j <;> constructor <;>
      simp [lpBounds, solVec, case5_sol] <;> ring_nf <;>
      linarith [e1, u1, u2, u3, d21, d31, A2, A3, A4, A5, E8, E9, P1, P2, Q1, Q2,
        s2b, s3b]

/-! ## Claim theorems -/

/-- C1 (counterexample): at the strictly positive ordered triple
`k = (2, 5, 6)` the code returns the Case 2 solution with revenue `1/2`, yet
the explicit point `xC1` is feasible for the script's LP with objective value
`61/120 > 1/2`; hence the analytical revenue is not the LP's optimal value and
the claimed bound "every feasible point has score sum at most the analytical
revenue" is false. -/
theorem C1_counterexample :
    analytical_solution 2 5 6 = some (case2_sol 2 6) ∧
    (case2_sol 2 6).revenue = 1/2 ∧
    Feasible 2 5 6 xC1 ∧
    objValue xC1 = 61/120 ∧
    (case2_sol 2 6).revenue < objValue xC1 := by
  refine ⟨by norm_num [analytical_solution], by norm_num [case2_sol], ⟨?_, ?_, ?_⟩,
    by norm_num [objValue, dot6, cObj, xC1, Fin.sum_univ_six],
    by norm_num [case2_sol, objValue, dot6, cObj, xC1, Fin.sum_univ_six]⟩
  · intro i
    fin_cases i <;> norm_num [dot6, Aub, b_ub, xC1, Fin.sum_univ_six]
  · intro i
    fin_cases i
    norm_num [dot6, Aeq, beq, xC1, Fin.sum_univ_six]
  · intro j
    fin_cases j <;> norm_num [lpBounds, xC1]

/-- C1 (amended): on every strictly positive ordered triple on which
`analytical_solution` returns a solution, the returned `(scores, prizes)`
vector is feasible for the script's LP and its objective value equals the
returned `revenue` (so the analytical revenue is a lower bound on the LP
optimum); by `C1_counterexample` it is not always the optimum itself. -/
theorem C1_amended (k1 k2 k3 : ℚ) (hk1 : 0 < k1) (h12 : k1 ≤ k2) (h23 : k2 ≤ k3)
    (sol : RegimeSolution ℚ) (h : analytical_solution k1 k2 k3 = some sol) :
    Feasible k1 k2 k3 (solVec sol) ∧ objValue (solVec sol) = sol.revenue := by
  have hk2 : 0 < k2 := hk1.trans_le h12
  have hk3 : 0 < k3 := hk2.trans_le h23
  constructor
  · rcases analytical_solution_cases k1 k2 k3 hk1 hk2 hk3 h with
      ⟨hg, rfl⟩ | ⟨h1, hg, rfl⟩ | ⟨h1, h2, hg, rfl⟩ | ⟨h1, h2, h3, hg1, hg2, rfl⟩ |
      ⟨h1, h2, h3, hg1, hg2, rfl⟩
    · exact case1_feasible k1 k2 k3 hk1 h12 h23
    · exact case2_feasible k1 k2 k3 hk1 h12 h23
    · exact case3_feasible k1 k2 k3 hk1 h12 h23 hg
    · exact case4_feasible k1 k2 k3 hk1 h12 h23 h3
    · exact case5_feasible k1 k2 k3 hk1 h12 h23 hg1.le hg2
  · rw [objValue_solVec, revenue_eq_sum_scores k1 k2 k3 h]

/-- Witness for `C1_amended` at the concrete ordered triple `k = (1, 1, 1)`
(which falls into Case 5). -/
theorem C1_amended_witness :
    Feasible 1 1 1 (solVec (case5_sol 1 1 1)) ∧
    objValue (solVec (case5_sol 1 1 1)) = (case5_sol 1 1 1).revenue :=
  C1_amended 1 1 1 (by norm_num) (le_refl 1) (le_refl 1) (case5_sol 1 1 1)
    (by norm_num [analytical_solution])

/-- C2: the five-case chain is not exhaustive.  At the strictly positive
ordered triple `k = (1, 15/8, 9/4)` (exactly representable in binary floating
point, so the Python script computes exactly these values) every one of the
five conditions fails and `analytical_solution` falls through, returning
`None`. -/
theorem C2_not_exhaustive :
    (0:ℚ) < 1 ∧ (1:ℚ) ≤ 15/8 ∧ (15/8:ℚ) ≤ 9/4 ∧
    analytical_solution 1 (15/8) (9/4) = none := by
  refine ⟨by norm_num, by norm_num, by norm_num, by norm_num [analytical_solution]⟩

/-- C3: at `k = (1, 15/8, 9/4)` the guards of Cases 1-3 all fail and the
claimed Case 4 condition `(k2 + k3)/k1 ≥ 3` holds, yet `analytical_solution`
returns `None` instead of the Case 4 solution (the code's Case 4 guard
carries an extra requirement `k3/k1 ≤ 2` that fails here). -/
theorem C3_case4_not_selected :
    ¬ (3 ≤ (9/4 : ℚ) / (15/8)) ∧
    ¬ ((9/4 : ℚ) / (15/8) ≤ 3 ∧ 3 ≤ (9/4 : ℚ) / 1) ∧
    ¬ ((9/4 : ℚ) / 1 ≤ 3 ∧ 2 ≤ (9/4 : ℚ) / (15/8)) ∧
    3 ≤ ((15/8 : ℚ) + 9/4) / 1 ∧
    analytical_solution 1 (15/8) (9/4) = none := by
  refine ⟨by norm_num, by norm_num, by norm_num, by norm_num,
    by norm_num [analytical_solution]⟩

/-- C5: the LP built by the script is exactly the one the spec describes.
Reading `x = (s1, s2, s3, p1, p2, p3)`: the minimised objective is the negated
score sum; the nine inequality rows are, in order, the six IC constraints for
the ordered pairs (1,2),(1,3),(2,1),(2,3),(3,1),(3,2) and the three IR
constraints; the single equality is `p1 + p2 + p3 = 2`; and the bounds are
`0 ≤ s_i ≤ 1/k_i`, `0 ≤ p_i ≤ 1`. -/
theorem C5_lp_formulation (k1 k2 k3 : ℚ) (x : Fin 6 → ℚ) :
    (dot6 cObj x = -(x 0 + x 1 + x 2)) ∧
    (dot6 (Aub k1 k2 k3 0) x ≤ b_ub 0 ↔ k1 * x 0 - k1 * x 1 - x 3 ≤ -(1/2)) ∧
    (dot6 (Aub k1 k2 k3 1) x ≤ b_ub 1 ↔ k1 * x 0 - k1 * x 2 - x 3 ≤ -(1/2)) ∧
    (dot6 (Aub k1 k2 k3 2) x ≤ b_ub 2 ↔ k2 * x 1 - k2 * x 0 - x 4 ≤ -(1/2)) ∧
    (dot6 (Aub k1 k2 k3 3) x ≤ b_ub 3 ↔ k2 * x 1 - k2 * x 2 - x 4 ≤ -(1/2)) ∧
    (dot6 (Aub k1 k2 k3 4) x ≤ b_ub 4 ↔ k3 * x 2 - k3 * x 0 - x 5 ≤ -(1/2)) ∧
    (dot6 (Aub k1 k2 k3 5) x ≤ b_ub 5 ↔ k3 * x 2 - k3 * x 1 - x 5 ≤ -(1/2)) ∧
    (dot6 (Aub k1 k2 k3 6) x ≤ b_ub 6 ↔ k1 * x 0 - x 3 ≤ 0) ∧
    (dot6 (Aub k1 k2 k3 7) x ≤ b_ub 7 ↔ k2 * x 1 - x 4 ≤ 0) ∧
    (dot6 (Aub k1 k2 k3 8) x ≤ b_ub 8 ↔ k3 * x 2 - x 5 ≤ 0) ∧
    (dot6 (Aeq 0) x = beq 0 ↔ x 3 + x 4 + x 5 = 2) ∧
    (lpBounds k1 k2 k3 0 = (0, 1 / k1)) ∧
    (lpBounds k1 k2 k3 1 = (0, 1 / k2)) ∧
    (lpBounds k1 k2 k3 2 = (0, 1 / k3)) ∧
    (lpBounds k1 k2 k3 3 = (0, 1)) ∧
    (lpBounds k1 k2 k3 4 = (0, 1)) ∧
    (lpBounds k1 k2 k3 5 = (0, 1)) := by
  refine ⟨?_, ?_, ?_, ?_, ?_, ?_, ?_, ?_, ?_, ?_, ?_, rfl, rfl, rfl, rfl, rfl, rfl⟩
  · simp [dot6, cObj, Fin.sum_univ_six]
    ring
  all_goals
    simp [dot6, Aub, b_ub, Aeq, beq, Fin.sum_univ_six]
  all_goals
    constructor <;> intro hx <;> linarith

/-- C6 (counterexample): on the Cases 1/2 boundary `k3/k2 = 3`, taken at
`k = (1, 1, 3)`, the revenue formulas of the two adjacent cases agree but the
score formulas do not (`(1/2, 1/2, 0)` against `(2/3, 1/6, 1/6)`), so the
claimed continuity of scores across every regime boundary is false. -/
theorem C6_counterexample :
    (3 : ℚ) / 1 = 3 ∧
    analytical_solution 1 1 3 = some (case1_sol 1 1) ∧
    (case1_sol 1 1).revenue = (case2_sol 1 3).revenue ∧
    (case1_sol 1 1).scores ≠ (case2_sol 1 3).scores := by
  refine ⟨by norm_num, by norm_num [analytical_solution],
    by norm_num [case1_sol, case2_sol], ?_⟩
  norm_num [case1_sol, case2_sol, Prod.ext_iff]

/-- C6 (amended): across the four regime boundaries the *revenue* formulas of
the adjacent cases agree exactly; the *score* formulas agree only on the
Cases 3/4 boundary `k3 = 2 k2` (and by `C6_counterexample` they genuinely
differ on the Cases 1/2 boundary). -/
theorem C6_amended (k1 k2 k3 : ℚ) (hk1 : 0 < k1) (h12 : k1 ≤ k2) (h23 : k2 ≤ k3) :
    (k3 = 3 * k2 → (case1_sol k1 k2).revenue = (case2_sol k1 k3).revenue) ∧
    (k3 = 3 * k1 → (case2_sol k1 k3).revenue = (case3_sol k3).revenue) ∧
    (k3 = 2 * k2 → (case3_sol k3).revenue = (case4_sol k1 k2 k3).revenue ∧
      (case3_sol k3).scores = (case4_sol k1 k2 k3).scores) ∧
    (k2 + k3 = 3 * k1 → (case4_sol k1 k2 k3).revenue = (case5_sol k1 k2 k3).revenue) := by
  have hk2 : 0 < k2 := hk1.trans_le h12
  have hk3 : 0 < k3 := hk2.trans_le h23
  have n1 : k1 ≠ 0 := hk1.ne'
  have n2 : k2 ≠ 0 := hk2.ne'
  refine ⟨?_, ?_, ?_, ?_⟩
  · intro hb
    subst hb
    simp only [case1_sol, case2_sol]
    field_simp
    ring
  · intro hb
    subst hb
    simp only [case2_sol, case3_sol]
    field_simp
    ring
  · intro hb
    subst hb
    constructor
    · simp only [case3_sol, case4_sol]
      field_simp
      ring
    · have hcomp : (1:ℚ) / (2 * k2) = 1 / k1 - (2 * k2 / k1 - 1) / (2 * k2) := by
        field_simp
        try ring
      simp [case3_sol, case4_sol, hcomp]
  · intro hb
    obtain rfl : k3 = 3 * k1 - k2 := by linarith
    simp only [case4_sol, case5_sol]
    field_simp
    ring

/-- Witness for `C6_amended` at the ordered triple `k = (1, 1, 2)` (which
lies on the Cases 3/4 boundary `k3 = 2 k2`). -/
theorem C6_amended_witness :
    ((2:ℚ) = 3 * 1 → (case1_sol 1 1).revenue = (case2_sol 1 2).revenue) ∧
    ((2:ℚ) = 3 * 1 → (case2_sol 1 2).revenue = (case3_sol 2).revenue) ∧
    ((2:ℚ) = 2 * 1 → (case3_sol 2).revenue = (case4_sol 1 1 2).revenue ∧
      (case3_sol 2).scores = (case4_sol 1 1 2).scores) ∧
    ((1:ℚ) + 2 = 3 * 1 → (case4_sol 1 1 2).revenue = (case5_sol 1 1 2).revenue) :=
  C6_amended 1 1 2 (by norm_num) (le_refl 1) (by norm_num)

/-- C7: on every strictly positive ordered triple on which the code returns a
solution, each prize lies in `[0, 1]` and the three prizes sum to exactly `2`
(the LP's prize-mass convention). -/
theorem C7_prize_conservation (k1 k2 k3 : ℚ) (hk1 : 0 < k1) (h12 : k1 ≤ k2)
    (h23 : k2 ≤ k3) (sol : RegimeSolution ℚ)
    (h : analytical_solution k1 k2 k3 = some sol) :
    (0 ≤ sol.prizes.1 ∧ sol.prizes.1 ≤ 1) ∧
    (0 ≤ sol.prizes.2.1 ∧ sol.prizes.2.1 ≤ 1) ∧
    (0 ≤ sol.prizes.2.2 ∧ sol.prizes.2.2 ≤ 1) ∧
    sol.prizes.1 + sol.prizes.2.1 + sol.prizes.2.2 = 2 := by
  have hk2 : 0 < k2 := hk1.trans_le h12
  have hk3 : 0 < k3 := hk2.trans_le h23
  rcases analytical_solution_cases k1 k2 k3 hk1 hk2 hk3 h with
    ⟨hg, rfl⟩ | ⟨h1, hg, rfl⟩ | ⟨h1, h2, hg, rfl⟩ | ⟨h1, h2, h3, hg1, hg2, rfl⟩ |
    ⟨h1, h2, h3, hg1, hg2, rfl⟩
  · norm_num [case1_sol]
  · norm_num [case2_sol]
  · norm_num [case3_sol]
  · have hd1 : k3 / (2 * k2) < 1 := (div_lt_one (by positivity)).mpr (by linarith)
    have hd2 : 1 / 2 ≤ k3 / (2 * k2) := by
      rw [le_div_iff₀ (by positivity)]
      linarith
    have hd0 : 0 ≤ k3 / (2 * k2) := by positivity
    simp only [case4_sol]
    refine ⟨⟨by linarith, by linarith⟩, ⟨by norm_num, by norm_num⟩,
      ⟨hd0, hd1.le⟩, by ring⟩
  · have hd1 : 1 ≤ (k2 + k3) / (2 * k1) := by
      rw [le_div_iff₀ (by positivity)]
      linarith
    have hd2 : (k2 + k3) / (2 * k1) ≤ 3 / 2 := by
      rw [div_le_iff₀ (by positivity)]
      linarith
    have hp2 : k2 / (2 * k1) ≤ 1 := (div_le_one (by positivity)).mpr (by linarith)
    have hp3 : k3 / (2 * k1) ≤ 1 := (div_le_one (by positivity)).mpr (by linarith)
    have hp2' : 0 ≤ k2 / (2 * k1) := by positivity
    have hp3' : 0 ≤ k3 / (2 * k1) := by positivity
    simp only [case5_sol]
    refine ⟨⟨by linarith, by linarith⟩, ⟨hp2', hp2⟩, ⟨hp3', hp3⟩, by ring⟩

/-- Witness for `C7_prize_conservation` at the concrete triple `k = (1, 1, 1)`. -/
theorem C7_prize_conservation_witness :
    (0 ≤ (case5_sol 1 1 1).prizes.1 ∧ (case5_sol 1 1 1).prizes.1 ≤ 1) ∧
    (0 ≤ (case5_sol 1 1 1).prizes.2.1 ∧ (case5_sol 1 1 1).prizes.2.1 ≤ 1) ∧
    (0 ≤ (case5_sol 1 1 1).prizes.2.2 ∧ (case5_sol 1 1 1).prizes.2.2 ≤ 1) ∧
    (case5_sol 1 1 1).prizes.1 + (case5_sol 1 1 1).prizes.2.1 +
      (case5_sol 1 1 1).prizes.2.2 = 2 :=
  C7_prize_conservation 1 1 1 (by norm_num) (le_refl 1) (le_refl 1)
    (case5_sol 1 1 1) (by norm_num [analytical_solution])

/-- C8: on every strictly positive triple on which the code returns a
solution, the `revenue` field equals the sum of the three scores and is
non-negative (no ordering of the costs is needed). -/
theorem C8_revenue_eq_score_sum (k1 k2 k3 : ℚ) (hk1 : 0 < k1) (hk2 : 0 < k2)
    (hk3 : 0 < k3) (sol : RegimeSolution ℚ)
    (h : analytical_solution k1 k2 k3 = some sol) :
    sol.revenue = sol.scores.1 + sol.scores.2.1 + sol.scores.2.2 ∧
    0 ≤ sol.revenue := by
  refine ⟨revenue_eq_sum_scores k1 k2 k3 h, ?_⟩
  rcases analytical_solution_cases k1 k2 k3 hk1 hk2 hk3 h with
    ⟨hg, rfl⟩ | ⟨h1, hg, rfl⟩ | ⟨h1, h2, hg, rfl⟩ | ⟨h1, h2, h3, hg1, hg2, rfl⟩ |
    ⟨h1, h2, h3, hg1, hg2, rfl⟩
  · simp only [case1_sol]
    positivity
  · simp only [case2_sol]
    positivity
  · simp only [case3_sol]
    positivity
  · have hr : k3 / k1 ≤ 2 := (div_le_iff₀ hk1).mpr (by linarith)
    have h1p : (0:ℚ) ≤ 1 / k1 := by positivity
    have h2p : 0 ≤ (3 - k3 / k1) / (2 * k2) := div_nonneg (by linarith) (by positivity)
    simp only [case4_sol]
    linarith
  · have hr : (k2 + k3) / k1 ≤ 3 := (div_le_iff₀ hk1).mpr (by linarith)
    simp only [case5_sol]
    exact div_nonneg (by linarith) (by positivity)

/-- Witness for `C8_revenue_eq_score_sum` at the concrete triple `k = (1, 1, 1)`. -/
theorem C8_revenue_eq_score_sum_witness :
    (case5_sol 1 1 1).revenue = (case5_sol 1 1 1).scores.1 +
      (case5_sol 1 1 1).scores.2.1 + (case5_sol 1 1 1).scores.2.2 ∧
    0 ≤ (case5_sol 1 1 1).revenue :=
  C8_revenue_eq_score_sum 1 1 1 (by norm_num) (by norm_num) (by norm_num)
    (case5_sol 1 1 1) (by norm_num [analytical_solution])

/-- C9: at `k = (5/6, 1, 3)`, where `k3/k2 = 3` exactly (the shared boundary
of Cases 1 and 2), the code's evaluation order selects Case 1, with scores
`(0.6, 0.5, 0)` and revenue `1.1`. -/
theorem C9_boundary_tie_break :
    analytical_solution (5/6) 1 3 = some (case1_sol (5/6) 1) ∧
    (case1_sol (5/6) 1).scores = (3/5, 1/2, 0) ∧
    (case1_sol (5/6) 1).revenue = 11/10 := by
  refine ⟨by norm_num [analytical_solution], ?_, by norm_num [case1_sol]⟩
  norm_num [case1_sol, Prod.ext_iff]

/-- C10: on every strictly positive ordered triple on which the code returns
a solution, the scores are ordered `s1 ≥ s2 ≥ s3 ≥ 0`, in every branch. -/
theorem C10_scores_ordered (k1 k2 k3 : ℚ) (hk1 : 0 < k1) (h12 : k1 ≤ k2)
    (h23 : k2 ≤ k3) (sol : RegimeSolution ℚ)
    (h : analytical_solution k1 k2 k3 = some sol) :
    sol.scores.2.1 ≤ sol.scores.1 ∧ sol.scores.2.2 ≤ sol.scores.2.1 ∧
    0 ≤ sol.scores.2.2 := by
  have hk2 : 0 < k2 := hk1.trans_le h12
  have hk3 : 0 < k3 := hk2.trans_le h23
  have u1 : (0:ℚ) < k1⁻¹ := inv_pos.mpr hk1
  have u2 : (0:ℚ) < k2⁻¹ := inv_pos.mpr hk2
  rcases analytical_solution_cases k1 k2 k3 hk1 hk2 hk3 h with
    ⟨hg, rfl⟩ | ⟨h1, hg, rfl⟩ | ⟨h1, h2, hg, rfl⟩ | ⟨h1, h2, h3, hg1, hg2, rfl⟩ |
    ⟨h1, h2, h3, hg1, hg2, rfl⟩
  · simp only [case1_sol]
    exact ⟨one_div_le_one_div_of_le (by positivity) (by linarith), by positivity,
      le_refl 0⟩
  · have h0 : (0:ℚ) < 1 / (2 * k1) := by positivity
    have h0' : (0:ℚ) ≤ 1 / (2 * k3) := by positivity
    simp only [case2_sol]
    exact ⟨by linarith, le_refl _, h0'⟩
  · simp only [case3_sol]
    exact ⟨le_refl _, le_refl _, by positivity⟩
  · refine ⟨?_, le_refl _, by simp only [case4_sol]; positivity⟩
    simp only [case4_sol]
    have key : 0 ≤ (2 * k2 - k3) * k1⁻¹ * k2⁻¹ :=
      mul_nonneg (mul_nonneg (by linarith) u1.le) u2.le
    have e2 : k2 * k2⁻¹ = 1 := mul_inv_cancel₀ hk2.ne'
    ring_nf
    nlinarith [key, e2, u1, u2]
  · refine ⟨?_, le_refl _, by simp only [case5_sol]; positivity⟩
    simp only [case5_sol]
    have e1 : k1 * k1⁻¹ = 1 := mul_inv_cancel₀ hk1.ne'
    have A2 : (k2 + k3) * k1⁻¹ ≤ 3 :=
      by linarith [mul_le_mul_of_nonneg_right hg1.le u1.le, e1]
    have Q1 : 0 ≤ k1⁻¹ * (3 - (k2 + k3) * k1⁻¹) := mul_nonneg u1.le (by linarith)
    ring_nf
    linarith [Q1, u1]

/-- Witness for `C10_scores_ordered` at the concrete triple `k = (1, 1, 1)`. -/
theorem C10_scores_ordered_witness :
    (case5_sol 1 1 1).scores.2.1 ≤ (case5_sol 1 1 1).scores.1 ∧
    (case5_sol 1 1 1).scores.2.2 ≤ (case5_sol 1 1 1).scores.2.1 ∧
    0 ≤ (case5_sol 1 1 1).scores.2.2 :=
  C10_scores_ordered 1 1 1 (by norm_num) (le_refl 1) (le_refl 1)
    (case5_sol 1 1 1) (by norm_num [analytical_solution])

/-- C4: no domain rejection.  At `k = (0, 1, 2)` the source does not raise a
`DomainError`: under the float semantics `k3/k1 = 2/0` evaluates to `+inf`,
the Case 2 guard `k3/k2 <= 3 <= k3/k1` becomes true, and the function returns
a Case 2 result whose first score and revenue are `+inf` — an Inf-filled
result instead of the error the spec requires. -/
theorem C4_no_domain_error :
    analytical_solution_float (.num 0) (.num 1) (.num 2) =
      some { scores := (.inf, .num (1/4), .num (1/4))
             prizes := (.num 1, .num (1/2), .num (1/2))
             revenue := .inf
             description := "Case 2: The principal transfers half of Player 2\x27s prize to Player 3." } := by
  norm_num [analytical_solution_float, fdiv, fmul, fadd, fle]

end ThreePlayers
